import Mathlib

/-!
Verification development for the `mcp-client-claude` repository
(`mcp-fastapi-server`).  The Python sources are shallowly embedded:
HTTP traffic is modelled by an oracle mapping each endpoint URL to the
outcome the server produces, `json.loads` is modelled by an oracle
mapping a string to an optional parsed JSON value, and every other
operation is translated into an executable Lean function following the
source line by line.
-/

/-! ## A small JSON value model (results of `json.loads`) -/

/-- JSON-like values as produced by `json.loads` and consumed by the
Python clients (dicts become association lists in field order). -/
inductive Jv where
  | null
  | bool (b : Bool)
  | num (n : Int)
  | str (s : String)
  | arr (elems : List Jv)
  | obj (fields : List (String × Jv))
deriving Repr

mutual

/-- Structural equality of JSON values (Python `==` on parsed JSON). -/
def jvBeq : Jv → Jv → Bool
  | .null, .null => true
  | .bool a, .bool b => a == b
  | .num a, .num b => a == b
  | .str a, .str b => a == b
  | .arr a, .arr b => jvListBeq a b
  | .obj a, .obj b => jvFieldsBeq a b
  | _, _ => false

def jvListBeq : List Jv → List Jv → Bool
  | [], [] => true
  | a :: as, b :: bs => jvBeq a b && jvListBeq as bs
  | _, _ => false

def jvFieldsBeq : List (String × Jv) → List (String × Jv) → Bool
  | [], [] => true
  | (ka, va) :: as, (kb, vb) :: bs => ka == kb && jvBeq va vb && jvFieldsBeq as bs
  | _, _ => false

end

/-- Python truthiness of a parsed JSON value (`None`, `False`, `0`,
`""`, `[]`, and `{}` are falsy). -/
def jvTruthy : Jv → Bool
  | .null => false
  | .bool b => b
  | .num n => n != 0
  | .str s => !s.isEmpty
  | .arr l => !l.isEmpty
  | .obj f => !f.isEmpty

/-- Dictionary lookup on a parsed JSON object (`data.get(k)` /
`data[k]`). -/
def jvLookup (fields : List (String × Jv)) (k : String) : Option Jv :=
  (fields.find? (fun f => f.1 == k)).map (fun f => f.2)

/-- The Python `in` operator applied to a parsed JSON value.  `none`
models the `TypeError` raised when the value supports no membership
test (e.g. a number). -/
def pyIn (key : String) : Jv → Option Bool
  | .obj fields => some (fields.any (fun f => f.1 == key))
  | .arr elems => some (elems.any (fun e => jvBeq e (.str key)))
  | .str s => some (listContainsSub s.data key.data)
  | _ => none
where
  listContainsSub (l pat : List Char) : Bool :=
    match l with
    | [] => pat.isEmpty
    | _ :: rest => pat.isPrefixOf l || listContainsSub rest pat

/-! ## String helpers mirroring the Python string operations used -/

/-- `pat in s` on Python strings (substring containment). -/
def strContains (s pat : String) : Bool :=
  pyIn.listContainsSub s.data pat.data

/-- Python `s.rstrip('/')`. -/
def rstripSlash (s : String) : String :=
  String.mk ((s.data.reverse.dropWhile (fun c => c == '/')).reverse)

/-- Python `s.endswith(suf)`. -/
def strEndsWith (s suf : String) : Bool :=
  suf.data.isSuffixOf s.data

/-- Everything before the last occurrence of `pat` — the list core of
Python `s.rsplit(pat, 1)[0]` (returns the whole list when `pat` does
not occur). -/
def lastSplitBefore : List Char → List Char → List Char
  | [], _ => []
  | c :: rest, pat =>
    if pyIn.listContainsSub rest pat then c :: lastSplitBefore rest pat
    else if pat.isPrefixOf (c :: rest) then []
    else c :: lastSplitBefore rest pat

/-- Python `s.rsplit(pat, 1)[0]`. -/
def rsplitBefore (s pat : String) : String :=
  String.mk (lastSplitBefore s.data pat.data)

/-! ## `simple_mcp_client.SimpleMCPClient`: endpoint candidates -/

/-- The Azure-MCP shape test from `SimpleMCPClient._make_request`
(`'azure-api.net' in self.server_url and '/cea-mcp/mcp' in
self.server_url`). -/
def azureMcpUrl (serverUrl : String) : Bool :=
  strContains serverUrl "azure-api.net" && strContains serverUrl "/cea-mcp/mcp"

/-- Endpoint-candidate construction from `SimpleMCPClient._make_request`
(the identical block also appears in `_make_streaming_request`). -/
def possibleEndpoints (serverUrl : String) : List String :=
  if azureMcpUrl serverUrl then
    [serverUrl ++ "?transportType=streamable-http"]
  else
    let base_url := rstripSlash serverUrl
    let eps := [base_url, base_url ++ "/jsonrpc", base_url ++ "/rpc"]
    let eps :=
      if strContains base_url "/mcp" then
        let base_without_mcp := rsplitBefore base_url "/mcp"
        eps ++ [base_without_mcp, base_without_mcp ++ "/jsonrpc"]
      else eps
    if !(strEndsWith base_url "/mcp") then
      eps ++ [base_url ++ "/mcp", base_url ++ "/mcp/jsonrpc"]
    else eps

/-! ## `simple_mcp_client.SimpleMCPClient`: request machinery -/

/-- The `MCPResponse` dataclass.  Python dataclasses do not enforce
field types at runtime, so every field holds a JSON value. -/
structure MCPResp where
  jsonrpc : Jv
  id : Jv
  result : Option Jv := none
  error : Option Jv := none
deriving Repr

/-- `data.get(k)` where a JSON `null` maps to Python `None` (both give
`None` for the dataclass field). -/
def optField (fields : List (String × Jv)) (k : String) : Option Jv :=
  match jvLookup fields k with
  | some .null => none
  | v => v

/-- `MCPResponse(**data)`: requires a dict supplying `jsonrpc` and
`id`, optionally `result` / `error`, and nothing else; any other shape
raises `TypeError`, modelled as `none`. -/
def jvToResp : Jv → Option MCPResp
  | .obj fields =>
    if fields.all (fun f =>
        f.1 == "jsonrpc" || f.1 == "id" || f.1 == "result" || f.1 == "error") then
      match jvLookup fields "jsonrpc", jvLookup fields "id" with
      | some j, some i =>
        some { jsonrpc := j, id := i,
               result := optField fields "result",
               error := optField fields "error" }
      | _, _ => none
    else none
  | _ => none

/-- Outcome of one HTTP exchange against a candidate endpoint:
either a response with a status code, the value `response.json()`
would produce (`none` = body is not valid JSON) and the streamed text
chunks, or a transport-level exception. -/
inductive HttpOut where
  | http (status : Nat) (json : Option Jv) (chunks : List String)
  | exn
deriving Repr

/-- Errors `SimpleMCPClient._make_request` / `_make_streaming_request`
can raise to the caller. -/
inductive ReqError where
  /-- `ValueError("Authentication required. Please complete OAuth flow first.")` -/
  | authRequired
  /-- `ValueError("Azure MCP server error (<status>): ...")` -/
  | azureServerError (status : Nat)
  /-- `Exception("All MCP endpoints failed - ...")` -/
  | allEndpointsFailed
deriving DecidableEq, Repr

/-- The environment of one request: the HTTP behaviour of every
endpoint and the behaviour of `json.loads`. -/
structure TransportCtx where
  oracle : String → HttpOut
  jsonLoads : String → Option Jv

/-- State of the SSE reassembly loop in the Azure streaming branch of
`_make_request`. -/
inductive SseStep where
  | done (r : MCPResp)
  | raised
  | cont (buf : String)

/-- The per-line SSE loop of `_make_request` (Azure streaming branch):
`data: ` lines accumulate into the buffer (skipping empty content and
the `[DONE]` sentinel); a blank line or an `event: close` line flushes
the buffer as one `json.loads` attempt; a parse failure resets the
buffer; a successful parse returns `MCPResponse(**data)` (whose
`TypeError` propagates, `.raised`). -/
def processSseLines (jl : String → Option Jv) :
    List String → String → SseStep
  | [], buf => .cont buf
  | line :: rest, buf =>
    let l := line.trim
    if l.startsWith "data: " then
      let dc := (l.drop 6).trim
      if dc != "" && dc != "[DONE]" then processSseLines jl rest (buf ++ dc)
      else processSseLines jl rest buf
    else if l.startsWith "event: close" || l == "" then
      if buf != "" then
        match jl buf with
        | some d =>
          match jvToResp d with
          | some r => .done r
          | none => .raised
        | none => processSseLines jl rest ""
      else processSseLines jl rest buf
    else processSseLines jl rest buf

/-- The chunk loop of `_make_request` (Azure streaming branch): each
non-empty chunk is split at newlines and fed through the line loop;
the buffer survives chunk boundaries. -/
def processSseChunks (jl : String → Option Jv) :
    List String → String → SseStep
  | [], buf => .cont buf
  | ch :: rest, buf =>
    if ch == "" then processSseChunks jl rest buf
    else
      match processSseLines jl (ch.splitOn "\n") buf with
      | .cont buf2 => processSseChunks jl rest buf2
      | s => s

/-- The final fallback of the Azure streaming branch: scan the full
accumulated response for the first `data: ` line with non-empty,
non-`[DONE]` content and parse it; any failure is caught locally. -/
def fallbackGo (jl : String → Option Jv) : List String → Option MCPResp
  | [] => none
  | line :: rest =>
    let l := line.trim
    if l.startsWith "data: " then
      let jd := (l.drop 6).trim
      if jd != "" && jd != "[DONE]" then (jl jd).bind jvToResp
      else fallbackGo jl rest
    else fallbackGo jl rest

def fallbackParse (jl : String → Option Jv) (full : String) : Option MCPResp :=
  fallbackGo jl ((full.trim).splitOn "\n")

/-- The error response returned at the end of the Azure streaming
branch of `_make_request`
(`MCPResponse(jsonrpc="2.0", id="error", error={code: -32603, ...})`). -/
def streamParseErrResp : MCPResp :=
  { jsonrpc := .str "2.0", id := .str "error",
    error := some (.obj [("code", .num (-32603)),
                         ("message", .str "Failed to parse streaming response")]) }

/-- One Azure streaming exchange inside `_make_request`: on 200 run the
SSE loop, then the final buffer attempt, then the fallback scan, and
otherwise (including every non-200 status) return the parse-error
response.  `.error ()` models an exception escaping to the endpoint
loop (which then tries the next candidate). -/
def azureStreamRequest (jl : String → Option Jv) (status : Nat)
    (chunks : List String) : Except Unit MCPResp :=
  if status == 200 then
    match processSseChunks jl chunks "" with
    | .done r => .ok r
    | .raised => .error ()
    | .cont buf =>
      let afterFinal : Option MCPResp :=
        if buf != "" then (jl buf).bind jvToResp else none
      match afterFinal with
      | some r => .ok r
      | none =>
        match fallbackParse jl (String.join chunks) with
        | some r => .ok r
        | none => .ok streamParseErrResp
  else .ok streamParseErrResp

/-- The candidate loop of `SimpleMCPClient._make_request`, additionally
returning the list of endpoints attempted (in order). -/
def makeRequestGo (ctx : TransportCtx) :
    List String → List String → (Except ReqError MCPResp) × List String
  | [], tried => (.error .allEndpointsFailed, tried)
  | endpoint :: rest, tried =>
    let tried := tried ++ [endpoint]
    if strContains endpoint "azure-api.net" &&
        strContains endpoint "transportType=streamable-http" then
      match ctx.oracle endpoint with
      | .exn => makeRequestGo ctx rest tried
      | .http status _ chunks =>
        match azureStreamRequest ctx.jsonLoads status chunks with
        | .ok r => (.ok r, tried)
        | .error () => makeRequestGo ctx rest tried
    else
      match ctx.oracle endpoint with
      | .exn => makeRequestGo ctx rest tried
      | .http status json _ =>
        if status == 200 then
          match json with
          | some d =>
            match jvToResp d with
            | some r => (.ok r, tried)
            | none => makeRequestGo ctx rest tried
          | none => makeRequestGo ctx rest tried
        else if status == 401 then (.error .authRequired, tried)
        else if strContains endpoint "azure-api.net" && decide (400 ≤ status) then
          (.error (.azureServerError status), tried)
        else makeRequestGo ctx rest tried

/-- `SimpleMCPClient._make_request` with its attempt trace. -/
def makeRequestT (ctx : TransportCtx) (serverUrl : String) :
    (Except ReqError MCPResp) × List String :=
  makeRequestGo ctx (possibleEndpoints serverUrl) []

/-- `SimpleMCPClient._make_request` (result only). -/
def makeRequest (ctx : TransportCtx) (serverUrl : String) :
    Except ReqError MCPResp :=
  (makeRequestT ctx serverUrl).1

/-- Azure SSE line loop of `_make_streaming_request`: like the
buffered one, but a successful parse is yielded and the buffer resets
so accumulation continues (no `MCPResponse` conversion here). -/
def azureSseLines (jl : String → Option Jv) :
    List String → String → List Jv × String
  | [], buf => ([], buf)
  | line :: rest, buf =>
    let l := line.trim
    if l.startsWith "data: " then
      let dc := (l.drop 6).trim
      if dc != "" && dc != "[DONE]" then azureSseLines jl rest (buf ++ dc)
      else azureSseLines jl rest buf
    else if l.startsWith "event: close" || l == "" then
      if buf != "" then
        match jl buf with
        | some d =>
          let p := azureSseLines jl rest ""
          (d :: p.1, p.2)
        | none => azureSseLines jl rest ""
      else azureSseLines jl rest buf
    else azureSseLines jl rest buf

/-- Azure SSE chunk loop of `_make_streaming_request`. -/
def azureSseChunks (jl : String → Option Jv) :
    List String → String → List Jv × String
  | [], buf => ([], buf)
  | ch :: rest, buf =>
    if ch == "" then azureSseChunks jl rest buf
    else
      let p := azureSseLines jl (ch.splitOn "\n") buf
      let q := azureSseChunks jl rest p.2
      (p.1 ++ q.1, q.2)

/-- All values yielded by the Azure streaming branch of
`_make_streaming_request`, including the final leftover-buffer parse
attempt. -/
def azureStreamYields (jl : String → Option Jv) (chunks : List String) :
    List Jv :=
  let p := azureSseChunks jl chunks ""
  p.1 ++ (if p.2 != "" then
            match jl p.2 with
            | some d => [d]
            | none => []
          else [])

/-- One stripped line of the non-Azure streaming branch: a non-empty
line yields its JSON parse, or a `{"type": "text", "content": line}`
record when parsing fails. -/
def yieldOfLine (jl : String → Option Jv) (line : String) : Option Jv :=
  let l := line.trim
  if l != "" then
    some (match jl l with
          | some o => o
          | none => .obj [("type", .str "text"), ("content", .str l)])
  else none

/-- Non-Azure streaming branch of `_make_streaming_request`: chunks
accumulate in a buffer, every complete newline-terminated line is
yielded through `yieldOfLine`, and the final leftover buffer is
processed once more. -/
def streamYieldLines (jl : String → Option Jv) :
    List String → String → List Jv
  | [], buffer =>
    match yieldOfLine jl buffer with
    | some y => [y]
    | none => []
  | ch :: rest, buffer =>
    if ch == "" then streamYieldLines jl rest buffer
    else
      let parts := (buffer ++ ch).splitOn "\n"
      let completed := parts.dropLast
      let newBuf := (parts.getLast?).getD ""
      (completed.filterMap (yieldOfLine jl)) ++ streamYieldLines jl rest newBuf

/-- The candidate loop of `SimpleMCPClient._make_streaming_request`;
the result is the finite sequence of yielded values.  In the Azure
streaming branch a non-200 status is not checked at all, so the loop
just moves on to the next candidate. -/
def makeStreamingGo (ctx : TransportCtx) : List String → Except ReqError (List Jv)
  | [] => .error .allEndpointsFailed
  | endpoint :: rest =>
    if strContains endpoint "azure-api.net" &&
        strContains endpoint "transportType=streamable-http" then
      match ctx.oracle endpoint with
      | .exn => makeStreamingGo ctx rest
      | .http status _ chunks =>
        if status == 200 then .ok (azureStreamYields ctx.jsonLoads chunks)
        else makeStreamingGo ctx rest
    else
      match ctx.oracle endpoint with
      | .exn => makeStreamingGo ctx rest
      | .http status _ chunks =>
        if status == 200 then .ok (streamYieldLines ctx.jsonLoads chunks "")
        else if status == 401 then .error .authRequired
        else if strContains endpoint "azure-api.net" && decide (400 ≤ status) then
          .error (.azureServerError status)
        else makeStreamingGo ctx rest

/-- `SimpleMCPClient._make_streaming_request`. -/
def makeStreamingRequest (ctx : TransportCtx) (serverUrl : String) :
    Except ReqError (List Jv) :=
  makeStreamingGo ctx (possibleEndpoints serverUrl)

/-! ## `simple_mcp_client.SimpleMCPClient`: public query operations -/

/-- `response.result` truthiness (`if response.result:`). -/
def respResultTruthy (r : MCPResp) : Bool :=
  match r.result with
  | some v => jvTruthy v
  | none => false

/-- The fallback response of `list_tools`. -/
def emptyToolsResp : MCPResp :=
  { jsonrpc := .str "2.0", id := .str "empty_tools",
    result := some (.obj [("tools", .arr [])]) }

/-- The fallback response of `list_resources`. -/
def emptyResourcesResp : MCPResp :=
  { jsonrpc := .str "2.0", id := .str "empty_resources",
    result := some (.obj [("resources", .arr [])]) }

/-- The fallback response of `list_prompts`. -/
def emptyPromptsResp : MCPResp :=
  { jsonrpc := .str "2.0", id := .str "empty_prompts",
    result := some (.obj [("prompts", .arr [])]) }

/-- The fallback response of `call_tool`. -/
def toolErrResp (name : String) : MCPResp :=
  { jsonrpc := .str "2.0", id := .str ("tool_error_" ++ name),
    error := some (.obj [("code", .num (-32601)),
                         ("message", .str ("Tool \x27" ++ name ++ "\x27 not available"))]) }

/-- The fallback response of `read_resource`. -/
def resourceErrResp (uri : String) : MCPResp :=
  { jsonrpc := .str "2.0", id := .str ("resource_error_" ++ uri),
    error := some (.obj [("code", .num (-32601)),
                         ("message", .str ("Resource \x27" ++ uri ++ "\x27 not available"))]) }

/-- The fallback response of `get_prompt`. -/
def promptErrResp (name : String) : MCPResp :=
  { jsonrpc := .str "2.0", id := .str ("prompt_error_" ++ name),
    error := some (.obj [("code", .num (-32601)),
                         ("message", .str ("Prompt \x27" ++ name ++ "\x27 not available"))]) }

/-- `response.result and key in response.result` — the guard of the
three list operations; a `TypeError` from `in` escapes to the
surrounding `except Exception`, which also selects the fallback. -/
def resultHasKey (r : MCPResp) (key : String) : Bool :=
  match r.result with
  | some v =>
    if jvTruthy v then
      match pyIn key v with
      | some b => b
      | none => false
    else false
  | none => false

/-- `SimpleMCPClient.list_tools`: every exception from the transport is
swallowed and the empty tool list returned. -/
def list_tools (ctx : TransportCtx) (serverUrl : String) : MCPResp :=
  match makeRequest ctx serverUrl with
  | .ok response => if resultHasKey response "tools" then response else emptyToolsResp
  | .error _ => emptyToolsResp

/-- `SimpleMCPClient.list_resources`. -/
def list_resources (ctx : TransportCtx) (serverUrl : String) : MCPResp :=
  match makeRequest ctx serverUrl with
  | .ok response => if resultHasKey response "resources" then response else emptyResourcesResp
  | .error _ => emptyResourcesResp

/-- `SimpleMCPClient.list_prompts`. -/
def list_prompts (ctx : TransportCtx) (serverUrl : String) : MCPResp :=
  match makeRequest ctx serverUrl with
  | .ok response => if resultHasKey response "prompts" then response else emptyPromptsResp
  | .error _ => emptyPromptsResp

/-- `SimpleMCPClient.call_tool`. -/
def call_tool (ctx : TransportCtx) (serverUrl : String) (name : String) : MCPResp :=
  match makeRequest ctx serverUrl with
  | .ok response => if respResultTruthy response then response else toolErrResp name
  | .error _ => toolErrResp name

/-- `SimpleMCPClient.read_resource`. -/
def read_resource (ctx : TransportCtx) (serverUrl : String) (uri : String) : MCPResp :=
  match makeRequest ctx serverUrl with
  | .ok response => if respResultTruthy response then response else resourceErrResp uri
  | .error _ => resourceErrResp uri

/-- `SimpleMCPClient.get_prompt`. -/
def get_prompt (ctx : TransportCtx) (serverUrl : String) (name : String) : MCPResp :=
  match makeRequest ctx serverUrl with
  | .ok response => if respResultTruthy response then response else promptErrResp name
  | .error _ => promptErrResp name

/-! ## `intelligent_mcp_client.IntelligentMCPClient`: plan execution -/

/-- `llm_inference.ToolCall`. -/
structure ToolCall where
  name : String
  arguments : List (String × Jv)
  reasoning : String
deriving Repr

/-- `llm_inference.ExecutionPlan`.  The `dependencies` dict arrives
from parsed JSON keyed by decimal strings (`"2": [0, 1]`); since the
executor looks keys up via `str(step_index)` and decimal rendering is
injective, keys are modelled by the numbers themselves. -/
structure ExecutionPlan where
  tool_calls : List ToolCall
  execution_order : List Nat
  dependencies : List (Nat × List Nat)
  final_response_template : String
deriving Repr

/-- `intelligent_mcp_client.ExecutionStatus`. -/
inductive ExecutionStatus where
  | pending
  | running
  | completed
  | failed
  | skipped
deriving DecidableEq, Repr

/-- `intelligent_mcp_client.ExecutionStep`.  The Python `error` field
is annotated `Optional[str]` but is assigned either a string or the
JSON-RPC error dict, so it holds a JSON value here. -/
structure ExecutionStep where
  step_id : Nat
  tool_call : ToolCall
  status : ExecutionStatus
  result : Option Jv := none
  error : Option Jv := none
  start_time : Option Nat := none
  end_time : Option Nat := none
deriving Repr

/-- `execution_plan.dependencies.get(str(step_index), [])`. -/
def depsOf (plan : ExecutionPlan) (step_index : Nat) : List Nat :=
  ((plan.dependencies.find? (fun p => p.1 == step_index)).map (fun p => p.2)).getD []

/-- `dep_id in results_cache` (the key may map to a cached `None`). -/
def cacheHas (cache : List (Nat × Option Jv)) (dep_id : Nat) : Bool :=
  cache.any (fun p => p.1 == dep_id)

/-- `results_cache.get(dep_id)` for a key known to be present. -/
def cacheGet (cache : List (Nat × Option Jv)) (dep_id : Nat) : Option (Option Jv) :=
  (cache.find? (fun p => p.1 == dep_id)).map (fun p => p.2)

/-- `IntelligentMCPClient._check_dependencies_completed`. -/
def check_dependencies_completed (dependencies : List Nat)
    (results_cache : List (Nat × Option Jv)) : Bool :=
  dependencies.all (fun dep_id => cacheHas results_cache dep_id)

/-- Assignment `enhanced_args["_dependency_results"] = ...` on a dict
modelled as an association list. -/
def setKey (args : List (String × Jv)) (k : String) (v : Jv) : List (String × Jv) :=
  if args.any (fun p => p.1 == k) then
    args.map (fun p => if p.1 == k then (k, v) else p)
  else args ++ [(k, v)]

/-- `IntelligentMCPClient._enhance_arguments_with_dependencies`
(cached `None` results appear as JSON nulls in the injected list). -/
def enhance_arguments_with_dependencies (base_arguments : List (String × Jv))
    (dependencies : List Nat) (results_cache : List (Nat × Option Jv)) :
    List (String × Jv) :=
  if !dependencies.isEmpty then
    let dependency_results := dependencies.filterMap (fun dep_id =>
      match cacheGet results_cache dep_id with
      | some v => some (v.getD .null)
      | none => none)
    if !dependency_results.isEmpty then
      setKey base_arguments "_dependency_results" (.arr dependency_results)
    else base_arguments
  else base_arguments

/-- Outcome of one `mcp_client.call_tool` invocation seen by the plan
executor: a response, or an exception with its message.  Indexed by
the loop counter and given the (dependency-enhanced) call. -/
def CallOracle := Nat → ToolCall → Except String MCPResp

/-- `if result.error:` — truthiness of the optional error value. -/
def optErrTruthy : Option Jv → Bool
  | some v => jvTruthy v
  | none => false

/-- The loop body of `IntelligentMCPClient._execute_plan`.  The `t`
argument is a monotone clock supplying the values successive
`asyncio.get_event_loop().time()` calls return. -/
def executePlanGo (oracle : CallOracle) (plan : ExecutionPlan) :
    List Nat → Nat → List (Nat × Option Jv) → Nat → List ExecutionStep
  | [], _, _, _ => []
  | step_index :: rest, i, results_cache, t =>
    if decide (plan.tool_calls.length ≤ step_index) then
      executePlanGo oracle plan rest (i + 1) results_cache t
    else
      let tool_call := plan.tool_calls.getD step_index ⟨"", [], ""⟩
      let dependencies := depsOf plan step_index
      if !check_dependencies_completed dependencies results_cache then
        { step_id := step_index, tool_call := tool_call, status := .skipped,
          error := some (.str "Dependencies not met") } ::
          executePlanGo oracle plan rest (i + 1) results_cache t
      else
        let start_time := t
        let enhanced_arguments :=
          enhance_arguments_with_dependencies tool_call.arguments dependencies results_cache
        match oracle i { tool_call with arguments := enhanced_arguments } with
        | .error msg =>
          { step_id := step_index, tool_call := tool_call, status := .failed,
            error := some (.str msg),
            start_time := some start_time, end_time := some (t + 1) } ::
            executePlanGo oracle plan rest (i + 1) results_cache (t + 2)
        | .ok result =>
          if optErrTruthy result.error then
            { step_id := step_index, tool_call := tool_call, status := .failed,
              error := result.error,
              start_time := some start_time, end_time := some (t + 1) } ::
              executePlanGo oracle plan rest (i + 1) results_cache (t + 2)
          else
            { step_id := step_index, tool_call := tool_call, status := .completed,
              result := result.result,
              start_time := some start_time, end_time := some (t + 1) } ::
              executePlanGo oracle plan rest (i + 1)
                (results_cache ++ [(step_index, result.result)]) (t + 2)

/-- `IntelligentMCPClient._execute_plan`. -/
def execute_plan (oracle : CallOracle) (plan : ExecutionPlan) : List ExecutionStep :=
  executePlanGo oracle plan plan.execution_order 0 [] 0

/-- The overall `success` flag computed by
`process_natural_language_query`:
`all(step.status == ExecutionStatus.COMPLETED for step in execution_steps)`. -/
def planSuccess (steps : List ExecutionStep) : Bool :=
  steps.all (fun step => step.status == .completed)

/-! ## `enhanced_oauth_client.EnhancedOAuth2Client`: PKCE -/

/-- 32-bit right rotation on a word below `2 ^ 32`. -/
def rotr32 (n x : Nat) : Nat :=
  x / 2 ^ n + x % 2 ^ n * 2 ^ (32 - n)

/-- SHA-256 `Ch`. -/
def shaCh (x y z : Nat) : Nat := (x &&& y) ^^^ ((x ^^^ 0xffffffff) &&& z)

/-- SHA-256 `Maj`. -/
def shaMaj (x y z : Nat) : Nat := (x &&& y) ^^^ (x &&& z) ^^^ (y &&& z)

/-- SHA-256 `Σ0`. -/
def bigSigma0 (x : Nat) : Nat := rotr32 2 x ^^^ rotr32 13 x ^^^ rotr32 22 x

/-- SHA-256 `Σ1`. -/
def bigSigma1 (x : Nat) : Nat := rotr32 6 x ^^^ rotr32 11 x ^^^ rotr32 25 x

/-- SHA-256 `σ0`. -/
def smallSigma0 (x : Nat) : Nat := rotr32 7 x ^^^ rotr32 18 x ^^^ x / 2 ^ 3

/-- SHA-256 `σ1`. -/
def smallSigma1 (x : Nat) : Nat := rotr32 17 x ^^^ rotr32 19 x ^^^ x / 2 ^ 10

/-- The SHA-256 round constants. -/
def shaK : List Nat :=
  [1116352408, 1899447441, 3049323471,
   3921009573, 961987163, 1508970993,
   2453635748, 2870763221, 3624381080,
   310598401, 607225278, 1426881987,
   1925078388, 2162078206, 2614888103,
   3248222580, 3835390401, 4022224774,
   264347078, 604807628, 770255983,
   1249150122, 1555081692, 1996064986,
   2554220882, 2821834349, 2952996808,
   3210313671, 3336571891, 3584528711,
   113926993, 338241895, 666307205,
   773529912, 1294757372, 1396182291,
   1695183700, 1986661051, 2177026350,
   2456956037, 2730485921, 2820302411,
   3259730800, 3345764771, 3516065817,
   3600352804, 4094571909, 275423344,
   430227734, 506948616, 659060556,
   883997877, 958139571, 1322822218,
   1537002063, 1747873779, 1955562222,
   2024104815, 2227730452, 2361852424,
   2428436474, 2756734187, 3204031479,
   3329325298]

/-- The SHA-256 working state (eight 32-bit words). -/
structure Sha8 where
  a : Nat
  b : Nat
  c : Nat
  d : Nat
  e : Nat
  f : Nat
  g : Nat
  h : Nat

/-- The SHA-256 initial hash value. -/
def shaInit : Sha8 :=
  ⟨1779033703, 3144134277, 1013904242, 2773480762,
   1359893119, 2600822924, 528734635, 1541459225⟩

/-- Big-endian 4-byte groups to 32-bit words. -/
def bytesToWords : List Nat → List Nat
  | a :: b :: c :: d :: rest => (((a * 256 + b) * 256 + c) * 256 + d) :: bytesToWords rest
  | _ => []

/-- Extend the 16-word schedule to 64 words (iteratively, keeping the
accumulated list). -/
def extendSchedule : Nat → List Nat → List Nat
  | 0, ws => ws
  | fuel + 1, ws =>
    let n := ws.length
    let wn := (smallSigma1 (ws.getD (n - 2) 0) + ws.getD (n - 7) 0 +
               smallSigma0 (ws.getD (n - 15) 0) + ws.getD (n - 16) 0) % 2 ^ 32
    extendSchedule fuel (ws ++ [wn])

/-- One SHA-256 round. -/
def shaRound (st : Sha8) (kw : Nat × Nat) : Sha8 :=
  let t1 := (st.h + bigSigma1 st.e + shaCh st.e st.f st.g + kw.1 + kw.2) % 2 ^ 32
  let t2 := (bigSigma0 st.a + shaMaj st.a st.b st.c) % 2 ^ 32
  ⟨(t1 + t2) % 2 ^ 32, st.a, st.b, st.c, (st.d + t1) % 2 ^ 32, st.e, st.f, st.g⟩

/-- Compress one 64-byte chunk into the running hash. -/
def shaCompress (h0 : Sha8) (chunk : List Nat) : Sha8 :=
  let ws := extendSchedule 48 (bytesToWords chunk)
  let st := (shaK.zip ws).foldl shaRound h0
  ⟨(h0.a + st.a) % 2 ^ 32, (h0.b + st.b) % 2 ^ 32, (h0.c + st.c) % 2 ^ 32,
   (h0.d + st.d) % 2 ^ 32, (h0.e + st.e) % 2 ^ 32, (h0.f + st.f) % 2 ^ 32,
   (h0.g + st.g) % 2 ^ 32, (h0.h + st.h) % 2 ^ 32⟩

/-- Fold the compression function over consecutive 64-byte chunks. -/
def shaChunks (h : Sha8) (msg : List Nat) : Sha8 :=
  if _h64 : msg.length < 64 then h
  else shaChunks (shaCompress h (msg.take 64)) (msg.drop 64)
termination_by msg.length
decreasing_by
  simp only [List.length_drop]
  omega

/-- Big-endian 8-byte encoding of the bit length. -/
def be64 (n : Nat) : List Nat :=
  [n / 2 ^ 56 % 256, n / 2 ^ 48 % 256, n / 2 ^ 40 % 256, n / 2 ^ 32 % 256,
   n / 2 ^ 24 % 256, n / 2 ^ 16 % 256, n / 2 ^ 8 % 256, n % 256]

/-- SHA-256 padding. -/
def shaPad (msg : List Nat) : List Nat :=
  let zeroCount := (119 - msg.length % 64) % 64
  msg ++ [0x80] ++ List.replicate zeroCount 0 ++ be64 (8 * msg.length)

/-- Big-endian bytes of one 32-bit word. -/
def wordBytes (w : Nat) : List Nat :=
  [w / 2 ^ 24 % 256, w / 2 ^ 16 % 256, w / 2 ^ 8 % 256, w % 256]

/-- `hashlib.sha256(msg).digest()` over a byte sequence. -/
def sha256 (msg : List Nat) : List Nat :=
  let hs := shaChunks shaInit (shaPad msg)
  wordBytes hs.a ++ wordBytes hs.b ++ wordBytes hs.c ++ wordBytes hs.d ++
  wordBytes hs.e ++ wordBytes hs.f ++ wordBytes hs.g ++ wordBytes hs.h

/-- The URL-safe base64 alphabet used by `base64.urlsafe_b64encode`. -/
def b64alphabet : List Char :=
  "ABCDEFGHIJKLMNOPQRSTUVWXYZabcdefghijklmnopqrstuvwxyz0123456789-_".data

/-- One alphabet character. -/
def b64ch (i : Nat) : Char := b64alphabet.getD i 'A'

/-- The body of `base64.urlsafe_b64encode`: three bytes map to four
characters; a 1- or 2-byte tail is padded with `=`. -/
def b64body : List Nat → List Char
  | b1 :: b2 :: b3 :: rest =>
    b64ch (b1 / 4) :: b64ch (b1 % 4 * 16 + b2 / 16) ::
    b64ch (b2 % 16 * 4 + b3 / 64) :: b64ch (b3 % 64) :: b64body rest
  | [b1, b2] => [b64ch (b1 / 4), b64ch (b1 % 4 * 16 + b2 / 16), b64ch (b2 % 16 * 4), '=']
  | [b1] => [b64ch (b1 / 4), b64ch (b1 % 4 * 16), '=', '=']
  | [] => []

/-- Python `.rstrip('=')` on the encoded characters. -/
def rstripEquals (s : List Char) : List Char :=
  (s.reverse.dropWhile (fun c => c == '=')).reverse

/-- `base64.urlsafe_b64encode(bs).decode('utf-8').rstrip('=')`. -/
def b64urlNoPad (bs : List Nat) : String :=
  String.mk (rstripEquals (b64body bs))

/-- UTF-8 bytes of an ASCII string (`verifier.encode('utf-8')`; every
character produced by `b64urlNoPad` is ASCII). -/
def asciiBytes (s : String) : List Nat :=
  s.data.map Char.toNat

/-- `EnhancedOAuth2Client._generate_pkce_challenge`, parameterised by
the 32 bytes drawn from `secrets.token_bytes(32)`. -/
def generate_pkce_challenge (randomBytes : List Nat) : String × String :=
  let verifier := b64urlNoPad randomBytes
  let challenge := b64urlNoPad (sha256 (asciiBytes verifier))
  (verifier, challenge)

/-! ## `enhanced_oauth_client.EnhancedOAuth2Client`: delegation tokens -/

/-- `enhanced_oauth_client.DelegationToken`; times are in seconds. -/
structure DelegationToken where
  access_token : String
  token_type : String
  expires_in : Int
  scope : String
  delegated_user : String
  issued_at : Int
deriving Repr

/-- The client state read by `get_auth_headers` and
`is_delegation_token_valid`. -/
structure OAuthClientState where
  token : Option Jv
  delegation_tokens : List (String × DelegationToken)

/-- Errors `get_auth_headers` raises. -/
inductive AuthHeadersErr where
  /-- `ValueError("Delegation token for <user> has expired")` -/
  | delegationExpired (user : String)
  /-- `ValueError("No access token available")` -/
  | noToken
  /-- `self.token['access_token']` failed (`KeyError` / `TypeError`) -/
  | tokenShape
deriving DecidableEq, Repr

/-- A crude `str()` rendering, used only to interpolate a JSON value
into a header string. -/
def pyStr : Jv → String
  | .null => "None"
  | .bool true => "True"
  | .bool false => "False"
  | .num n => toString n
  | .str s => s
  | .arr _ => "[...]"
  | .obj _ => "{...}"

/-- `self.token['access_token']` (subscript on a parsed JSON value). -/
def pySubscript (v : Jv) (k : String) : Option Jv :=
  match v with
  | .obj fields => jvLookup fields k
  | _ => none

/-- The `elif self.token: ... else: raise` tail of
`EnhancedOAuth2Client.get_auth_headers` (the primary-token path). -/
def primary_auth_headers (st : OAuthClientState) :
    Except AuthHeadersErr (List (String × String)) :=
  match st.token with
  | some t =>
    if jvTruthy t then
      match pySubscript t "access_token" with
      | some v =>
        .ok [("Authorization", "Bearer " ++ pyStr v),
             ("Content-Type", "application/json")]
      | none => .error .tokenShape
    else .error .noToken
  | none => .error .noToken

/-- `EnhancedOAuth2Client.get_auth_headers` at time `now`
(`if delegated_user and delegated_user in self.delegation_tokens`). -/
def get_auth_headers (now : Int) (st : OAuthClientState)
    (delegated_user : Option String) :
    Except AuthHeadersErr (List (String × String)) :=
  match delegated_user with
  | some u =>
    if !u.isEmpty then
      match (st.delegation_tokens.find? (fun p => p.1 == u)).map (fun p => p.2) with
      | some delegation_token =>
        if now > delegation_token.issued_at + delegation_token.expires_in then
          .error (.delegationExpired u)
        else
          .ok [("Authorization", delegation_token.token_type ++ " " ++ delegation_token.access_token),
               ("Content-Type", "application/json"),
               ("X-Delegated-User", u)]
      | none => primary_auth_headers st
    else primary_auth_headers st
  | none => primary_auth_headers st

/-- `EnhancedOAuth2Client.is_delegation_token_valid` at time `now`. -/
def is_delegation_token_valid (now : Int) (st : OAuthClientState)
    (delegated_user : String) : Bool :=
  match (st.delegation_tokens.find? (fun p => p.1 == delegated_user)).map (fun p => p.2) with
  | none => false
  | some delegation_token =>
    decide (now < delegation_token.issued_at + delegation_token.expires_in)

/-! ## `metadata_discovery.MetadataDiscoveryService` -/

/-- `s.startswith(pre)` on Python strings. -/
def strStartsWith (s pre : String) : Bool :=
  pre.data.isPrefixOf s.data

/-- URL normalisation at the top of `discover_mcp_metadata`. -/
def normalizeUrl (url : String) : String :=
  if strStartsWith url "http://" || strStartsWith url "https://" then url
  else "https://" ++ url

/-- Split a character list at the first occurrence of `pat`,
returning the part before it and the part after it. -/
def breakAtSub : List Char → List Char → Option (List Char × List Char)
  | [], pat => if pat.isEmpty then some ([], []) else none
  | c :: rest, pat =>
    if pat.isPrefixOf (c :: rest) then some ([], (c :: rest).drop pat.length)
    else
      match breakAtSub rest pat with
      | some p => some (c :: p.1, p.2)
      | none => none

/-- `f"{parsed.scheme}://{parsed.netloc}"` for a URL carrying a
scheme (the netloc runs from `://` to the next `/`). -/
def schemeNetloc (url : String) : String :=
  match breakAtSub url.data "://".data with
  | some p => String.mk (p.1 ++ "://".data ++ p.2.takeWhile (fun c => c != '/'))
  | none => url

/-- `urlparse(url).netloc` for a URL carrying a scheme. -/
def urlNetloc (url : String) : String :=
  match breakAtSub url.data "://".data with
  | some p => String.mk (p.2.takeWhile (fun c => c != '/'))
  | none => ""

/-- `urljoin(base, path)` for the absolute paths used by the service. -/
def urljoinAbs (base path : String) : String :=
  schemeNetloc base ++ path

/-- `metadata_discovery.MCPMetadata`; dataclass fields hold whatever
JSON values `data.get` produced. -/
structure MCPMeta where
  name : Jv
  version : Jv
  oauth_metadata_url : Option Jv := none
  oauth_authorization_endpoint : Option Jv := none
  oauth_token_endpoint : Option Jv := none
  oauth_registration_endpoint : Option Jv := none
  supported_features : Option Jv := none
  description : Option Jv := none
deriving Repr

/-- `metadata_discovery.OAuthMetadata` (the fields used downstream). -/
structure OAuthMeta where
  authorization_endpoint : Jv
  token_endpoint : Jv
  registration_endpoint : Option Jv := none
  introspection_endpoint : Option Jv := none
  revocation_endpoint : Option Jv := none
  jwks_uri : Option Jv := none
  issuer : Option Jv := none
  scopes_supported : Jv
  response_types_supported : Jv
  grant_types_supported : Jv
  token_endpoint_auth_methods_supported : Jv
  code_challenge_methods_supported : Jv
deriving Repr

/-- `data.get(k, default)` (a present key wins even when its value is
JSON null, matching Python `dict.get`). -/
def dictGet (fields : List (String × Jv)) (k : String) (dflt : Jv) : Jv :=
  (jvLookup fields k).getD dflt

/-- `MetadataDiscoveryService._parse_mcp_metadata`; `none` models an
exception escaping the probe attempt (e.g. `data` is not a dict, so
`data.get` raises), which makes the probe loop move on. -/
def parse_mcp_metadata (data : Jv) (server_url : String) : Option MCPMeta :=
  match data with
  | .obj fields =>
    if (jvLookup fields "authorization_endpoint").isSome &&
        (jvLookup fields "token_endpoint").isSome then
      some { name := dictGet fields "name" (.str ("MCP Server at " ++ urlNetloc server_url)),
             version := dictGet fields "version" (.str "1.0.0"),
             oauth_metadata_url := optField fields "oauth_metadata_url",
             oauth_authorization_endpoint := optField fields "authorization_endpoint",
             oauth_token_endpoint := optField fields "token_endpoint",
             oauth_registration_endpoint := optField fields "registration_endpoint",
             supported_features := some (dictGet fields "supported_features"
               (.arr [.str "tools", .str "resources", .str "prompts"])),
             description := some (dictGet fields "description"
               (.str ("MCP Server discovered at " ++ server_url))) }
    else
      some { name := dictGet fields "name" (.str "Unknown MCP Server"),
             version := dictGet fields "version" (.str "1.0.0"),
             oauth_metadata_url := optField fields "oauth_metadata_url",
             oauth_authorization_endpoint := optField fields "oauth_authorization_endpoint",
             oauth_token_endpoint := optField fields "oauth_token_endpoint",
             oauth_registration_endpoint := optField fields "oauth_registration_endpoint",
             supported_features := some (dictGet fields "supported_features"
               (.arr [.str "tools", .str "resources", .str "prompts"])),
             description := optField fields "description" }
  | _ => none

/-- `MetadataDiscoveryService._construct_default_metadata`. -/
def construct_default_metadata (server_url : String) : MCPMeta :=
  let base_url := schemeNetloc server_url
  { name := .str ("MCP Server at " ++ urlNetloc server_url),
    version := .str "1.0.0",
    oauth_authorization_endpoint := some (.str (base_url ++ "/oauth/authorize")),
    oauth_token_endpoint := some (.str (base_url ++ "/oauth/token")),
    oauth_registration_endpoint := some (.str (base_url ++ "/oauth/register")),
    supported_features := some (.arr [.str "tools", .str "resources", .str "prompts"]),
    description := some (.str ("MCP Server discovered at " ++ server_url)) }

/-- The probe loop of `discover_mcp_metadata`: first URL with a 200
JSON body that parses into metadata wins. -/
def probeLoop (probe : String → Option Jv) (server_url : String) :
    List String → MCPMeta
  | [] => construct_default_metadata server_url
  | metadata_url :: rest =>
    match probe metadata_url with
    | some data =>
      match parse_mcp_metadata data server_url with
      | some m => m
      | none => probeLoop probe server_url rest
    | none => probeLoop probe server_url rest

/-- `MetadataDiscoveryService.discover_mcp_metadata`, with the HTTP
GETs modelled by `probe` (`none` = non-200, unparsable body, or a
transport exception). -/
def discover_mcp_metadata (probe : String → Option Jv) (mcp_server_url : String) :
    MCPMeta :=
  let url := normalizeUrl mcp_server_url
  probeLoop probe url
    [urljoinAbs url "/.well-known/mcp-configuration",
     urljoinAbs url "/metadata",
     urljoinAbs url "/.well-known/oauth-authorization-server",
     urljoinAbs url "/oauth/metadata"]

/-- `MetadataDiscoveryService.discover_oauth_metadata`; `.error ()`
wraps any failure (non-200, missing required endpoint keys, non-dict
body). -/
def discover_oauth_metadata (fetched : Except Unit Jv) : Except Unit OAuthMeta :=
  match fetched with
  | .error () => .error ()
  | .ok data =>
    match data with
    | .obj fields =>
      match jvLookup fields "authorization_endpoint", jvLookup fields "token_endpoint" with
      | some ae, some te =>
        .ok { authorization_endpoint := ae,
              token_endpoint := te,
              registration_endpoint := optField fields "registration_endpoint",
              introspection_endpoint := optField fields "introspection_endpoint",
              revocation_endpoint := optField fields "revocation_endpoint",
              jwks_uri := optField fields "jwks_uri",
              issuer := optField fields "issuer",
              scopes_supported := dictGet fields "scopes_supported"
                (.arr [.str "read", .str "write"]),
              response_types_supported := dictGet fields "response_types_supported"
                (.arr [.str "code"]),
              grant_types_supported := dictGet fields "grant_types_supported"
                (.arr [.str "authorization_code", .str "refresh_token"]),
              token_endpoint_auth_methods_supported :=
                dictGet fields "token_endpoint_auth_methods_supported"
                  (.arr [.str "client_secret_basic"]),
              code_challenge_methods_supported :=
                dictGet fields "code_challenge_methods_supported"
                  (.arr [.str "S256"]) }
      | _, _ => .error ()
    | _ => .error ()

/-- `x or ""` on a dataclass field holding an optional JSON value. -/
def orEmptyStr : Option Jv → Jv
  | some v => if jvTruthy v then v else .str ""
  | none => .str ""

/-- `MetadataDiscoveryService._construct_oauth_from_mcp_metadata`. -/
def construct_oauth_from_mcp_metadata (m : MCPMeta) : OAuthMeta :=
  { authorization_endpoint := orEmptyStr m.oauth_authorization_endpoint,
    token_endpoint := orEmptyStr m.oauth_token_endpoint,
    registration_endpoint := m.oauth_registration_endpoint,
    scopes_supported := .arr [.str "read", .str "write", .str "admin"],
    response_types_supported := .arr [.str "code"],
    grant_types_supported := .arr [.str "authorization_code", .str "refresh_token",
      .str "urn:ietf:params:oauth:grant-type:token-exchange"],
    token_endpoint_auth_methods_supported :=
      .arr [.str "client_secret_basic", .str "client_secret_post"],
    code_challenge_methods_supported := .arr [.str "S256"] }

/-- The result of `discover_full_configuration`. -/
structure FullConfig where
  mcp_metadata : Jv
  oauth_metadata : OAuthMeta
deriving Repr

/-- `MetadataDiscoveryService.discover_full_configuration`:
`probe` models the metadata GETs, `oauthFetch` the explicit OAuth
metadata GET. -/
def discover_full_configuration (probe : String → Option Jv)
    (oauthFetch : String → Except Unit Jv) (mcp_server_url : String) : FullConfig :=
  let mcp_metadata := discover_mcp_metadata probe mcp_server_url
  let oauth_metadata :=
    match mcp_metadata.oauth_metadata_url with
    | some u =>
      if jvTruthy u then
        match discover_oauth_metadata (oauthFetch (pyStr u)) with
        | .ok o => o
        | .error () => construct_oauth_from_mcp_metadata mcp_metadata
      else construct_oauth_from_mcp_metadata mcp_metadata
    | none => construct_oauth_from_mcp_metadata mcp_metadata
  { mcp_metadata := .obj
      [("name", mcp_metadata.name),
       ("version", mcp_metadata.version),
       ("description", (mcp_metadata.description).getD .null),
       ("supported_features",
         orEmptyList mcp_metadata.supported_features),
       ("server_url", .str mcp_server_url)],
    oauth_metadata := oauth_metadata }
where
  orEmptyList : Option Jv → Jv
    | some v => if jvTruthy v then v else .arr []
    | none => .arr []

/-! ## `mcp_client.MCPClient._make_request` (refresh-and-retry) -/

/-- Outcome of one `client.post` in `MCPClient._make_request`:
a status code with the parsed response (`none` = `response.json()` or
`MCPResponse(**data)` failed), or a transport exception. -/
inductive PostOut where
  | status (code : Nat) (body : Option MCPResp)
  | exn
deriving Repr

/-- Errors escaping `MCPClient._make_request`. -/
inductive McpCallErr where
  /-- `ValueError("OAuth token not available. Please authenticate first.")` -/
  | noTokenErr
  /-- `httpx.HTTPStatusError` re-raised by `raise_for_status` -/
  | httpStatusErr (code : Nat)
  /-- body parsing / dataclass construction failed -/
  | parseErr
  /-- transport exception from `client.post` -/
  | transportExn
  /-- `get_auth_headers` raised -/
  | headerErr
  /-- `refresh_token()` raised -/
  | refreshErr
deriving DecidableEq, Repr

/-- The environment of one `MCPClient._make_request` call: whether an
OAuth token is stored, whether the n-th `get_auth_headers` call
succeeds, the n-th `client.post` outcome, and whether
`refresh_token()` succeeds. -/
structure McpClientCtx where
  tokenPresent : Bool
  headersOk : Nat → Bool
  post : Nat → PostOut
  refreshOk : Bool

/-- `MCPClient._make_request`, additionally counting the `client.post`
calls and the `refresh_token()` calls made. -/
def mcp_make_request (c : McpClientCtx) :
    Except McpCallErr MCPResp × Nat × Nat :=
  if !c.tokenPresent then (.error .noTokenErr, 0, 0)
  else if !(c.headersOk 0) then (.error .headerErr, 0, 0)
  else
    match c.post 0 with
    | .exn => (.error .transportExn, 1, 0)
    | .status code body =>
      if code < 400 then
        match body with
        | some r => (.ok r, 1, 0)
        | none => (.error .parseErr, 1, 0)
      else if code == 401 then
        if !c.refreshOk then (.error .refreshErr, 1, 1)
        else if !(c.headersOk 1) then (.error .headerErr, 1, 1)
        else
          match c.post 1 with
          | .exn => (.error .transportExn, 2, 1)
          | .status code2 body2 =>
            if code2 < 400 then
              match body2 with
              | some r => (.ok r, 2, 1)
              | none => (.error .parseErr, 2, 1)
            else (.error (.httpStatusErr code2), 2, 1)
      else (.error (.httpStatusErr code), 1, 0)

/-! ## `oauth_flow_orchestrator.OAuthFlowOrchestrator` -/

/-- `oauth_flow_orchestrator.FlowStep`. -/
inductive FlowStep where
  | discover_metadata
  | register_client
  | get_authorization_url
  | wait_for_code
  | exchange_code
  | complete
  | error
deriving DecidableEq, Repr

/-- `oauth_flow_orchestrator.FlowStatus`. -/
structure FlowStatus where
  step : FlowStep
  message : String
  data : Option Jv := none
  error : Option String := none
  progress : Nat := 0
deriving Repr

/-- The registration record the orchestrator reads after a successful
DCR call (`client_id` is required in the response, the expiry
optional). -/
structure ClientRegLite where
  client_id : Jv
  client_secret_expires_at : Option Jv := none
deriving Repr

/-- Environment of one `start_full_oauth_flow` run: the outcome of
`discover_full_configuration`, of `register_client` (consulted only
when a registration endpoint is configured) and of
`get_authorization_url` (the generated URL, or the `ValueError`
message). -/
structure OrchCtx where
  mcp_server_url : String
  discovery : Except String FullConfig
  registration : Except String ClientRegLite
  authUrlOut : Except String String

/-- The terminal error event of `start_full_oauth_flow`. -/
def flowErrEvent (msg : String) : FlowStatus :=
  { step := .error, message := "OAuth flow failed", error := some msg, progress := 0 }

/-- The `data` payload of the second `discover_metadata` event. -/
def discoveredData (cfg : FullConfig) : Jv :=
  .obj [("mcp_server", cfg.mcp_metadata),
        ("oauth_endpoints", .obj
          [("authorization", cfg.oauth_metadata.authorization_endpoint),
           ("token", cfg.oauth_metadata.token_endpoint),
           ("registration", (cfg.oauth_metadata.registration_endpoint).getD .null)])]

/-- Truthiness of `oauth_metadata["registration_endpoint"]`. -/
def regEndpointTruthy (cfg : FullConfig) : Bool :=
  match cfg.oauth_metadata.registration_endpoint with
  | some v => jvTruthy v
  | none => false

/-- `OAuthFlowOrchestrator.start_full_oauth_flow` as the finite list
of `FlowStatus` events the async generator yields. -/
def start_full_oauth_flow (o : OrchCtx) : List FlowStatus :=
  let e1 : FlowStatus :=
    { step := .discover_metadata,
      message := "Discovering metadata for " ++ o.mcp_server_url ++ "...",
      progress := 10 }
  match o.discovery with
  | .error msg => [e1, flowErrEvent msg]
  | .ok cfg =>
    let e2 : FlowStatus :=
      { step := .discover_metadata, message := "Metadata discovered successfully",
        data := some (discoveredData cfg), progress := 25 }
    let regEvents : List FlowStatus :=
      if regEndpointTruthy cfg then
        let r1 : FlowStatus :=
          { step := .register_client, message := "Registering OAuth client...",
            progress := 40 }
        match o.registration with
        | .ok reg =>
          [r1, { step := .register_client, message := "Client registered successfully",
                 data := some (.obj [("client_id", reg.client_id),
                                     ("expires_at", (reg.client_secret_expires_at).getD .null)]),
                 progress := 55 }]
        | .error msg =>
          [r1, { step := .register_client,
                 message := "Client registration failed: " ++ msg ++
                   " - continuing with static client",
                 error := some msg, progress := 55 }]
      else
        [{ step := .register_client,
           message := "No registration endpoint available - using default client configuration",
           progress := 55 }]
    let e4 : FlowStatus :=
      { step := .get_authorization_url, message := "Generating authorization URL...",
        progress := 70 }
    match o.authUrlOut with
    | .error msg => [e1, e2] ++ regEvents ++ [e4, flowErrEvent msg]
    | .ok url =>
      let e5 : FlowStatus :=
        { step := .get_authorization_url,
          message := "Authorization URL generated - user consent required",
          data := some (.obj [("authorization_url", .str url),
            ("instructions", .str "Visit the authorization URL to grant consent, then provide the authorization code")]),
          progress := 85 }
      let e6 : FlowStatus :=
        { step := .wait_for_code,
          message := "Waiting for authorization code from user...",
          data := some (.obj [("authorization_url", .str url)]),
          progress := 90 }
      [e1, e2] ++ regEvents ++ [e4, e5, e6]

/-- The `data` payload of the terminal `complete` event. -/
def tokenData (tok : List (String × Jv)) : Jv :=
  .obj [("token_type", dictGet tok "token_type" (.str "Bearer")),
        ("expires_in", (jvLookup tok "expires_in").getD .null),
        ("scope", (jvLookup tok "scope").getD .null),
        ("has_refresh_token", .bool ((jvLookup tok "refresh_token").isSome))]

/-- `OAuthFlowOrchestrator.complete_authorization`:
`initialized` is `self.oauth_client is not None`, `exchange` the
outcome of `exchange_code_for_token` (the parsed token dict, or the
exception message). -/
def complete_authorization (initialized : Bool)
    (exchange : Except String (List (String × Jv))) : FlowStatus :=
  if !initialized then
    { step := .error, message := "OAuth client not initialized",
      error := some "Must run start_full_oauth_flow first", progress := 0 }
  else
    match exchange with
    | .ok token_response =>
      { step := .complete, message := "OAuth flow completed successfully",
        data := some (tokenData token_response), progress := 100 }
    | .error msg =>
      { step := .error, message := "Token exchange failed",
        error := some msg, progress := 90 }

/-- One full authorization run: the start events, followed — when the
start run reached `wait_for_code` (discovery and URL construction both
succeeded, so the orchestrator is initialized) — by the result of the
separate, resumable `complete_authorization` call. -/
def fullFlowRun (o : OrchCtx)
    (exchange : Except String (List (String × Jv))) : List FlowStatus :=
  match o.discovery, o.authUrlOut with
  | .ok _, .ok _ => start_full_oauth_flow o ++ [complete_authorization true exchange]
  | _, _ => start_full_oauth_flow o

/-- Position of a step in the fixed linear order of the flow. -/
def stepRank : FlowStep → Nat
  | .discover_metadata => 0
  | .register_client => 1
  | .get_authorization_url => 2
  | .wait_for_code => 3
  | .exchange_code => 4
  | .complete => 5
  | .error => 6

/-- `complete` and `error` are the terminal statuses. -/
def isTerminal (s : FlowStep) : Bool :=
  s == .complete || s == .error

/-- One adjacent pair of observed events is admissible: nothing
follows a terminal event; an `error` may follow any state; otherwise
the step may only move forward in the fixed order and, while the
successor is non-terminal, progress does not decrease. -/
def pairOk (a b : FlowStatus) : Bool :=
  !isTerminal a.step &&
  (b.step == .error ||
    (decide (stepRank a.step ≤ stepRank b.step) &&
     (isTerminal b.step || decide (a.progress ≤ b.progress))))

/-- An event sequence is well-ordered when every adjacent pair is. -/
def wellOrderedEvents : List FlowStatus → Bool
  | a :: b :: rest => pairOk a b && wellOrderedEvents (b :: rest)
  | _ => true

/-! ## Helper lemmas about the candidate loops -/

/-- A candidate fails over to the next one: transport exception or a
status that is neither 200 nor 401. -/
def failsOver (ctx : TransportCtx) (e : String) : Bool :=
  match ctx.oracle e with
  | .exn => true
  | .http status _ _ => !(status == 200) && !(status == 401)

/-- The candidate responds with HTTP 401. -/
def respondsWith401 (ctx : TransportCtx) (e : String) : Bool :=
  match ctx.oracle e with
  | .exn => false
  | .http status _ _ => status == 401

theorem makeRequestGo_all_exn (ctx : TransportCtx)
    (h : ∀ e, ctx.oracle e = .exn) :
    ∀ (eps tried : List String),
    makeRequestGo ctx eps tried = (.error .allEndpointsFailed, tried ++ eps) := by
  intro eps
  induction eps with
  | nil => intro tried; simp [makeRequestGo]
  | cons e rest ih =>
    intro tried
    simp only [makeRequestGo, h e]
    have hrec := ih (tried ++ [e])
    split <;> rw [hrec] <;> simp

theorem makeRequestGo_of_401 (ctx : TransportCtx) :
    ∀ (eps : List String) (k : Nat) (hk : k < eps.length) (tried : List String),
    (∀ e ∈ eps, strContains e "azure-api.net" = false) →
    (∀ j (hj : j < k), failsOver ctx (eps.get ⟨j, hj.trans hk⟩) = true) →
    respondsWith401 ctx (eps.get ⟨k, hk⟩) = true →
    makeRequestGo ctx eps tried = (.error .authRequired, tried ++ eps.take (k + 1)) := by
  intro eps
  induction eps with
  | nil => intro k hk; exact absurd hk (by simp)
  | cons e rest ih =>
    intro k hk tried hna hbefore h401
    have hnaE : strContains e "azure-api.net" = false := hna e (by simp)
    cases k with
    | zero =>
      simp only [List.get] at h401
      cases ho : ctx.oracle e with
      | exn => rw [respondsWith401, ho] at h401; exact absurd h401 (by simp)
      | http status json chunks =>
        rw [respondsWith401, ho] at h401
        have hs : status = 401 := by simpa using h401
        subst hs
        simp [makeRequestGo, hnaE, ho]
    | succ k =>
      have hfail : failsOver ctx e = true := by
        have := hbefore 0 (Nat.succ_pos k)
        simpa [List.get] using this
      have hk2 : k < rest.length := by simpa using Nat.lt_of_succ_lt_succ hk
      have step : makeRequestGo ctx (e :: rest) tried =
          makeRequestGo ctx rest (tried ++ [e]) := by
        cases ho : ctx.oracle e with
        | exn => simp only [makeRequestGo, ho]; split <;> rfl
        | http status json chunks =>
          rw [failsOver, ho] at hfail
          have hs200 : (status == 200) = false := by
            cases h1 : status == 200 <;> simp_all
          have hs401 : (status == 401) = false := by
            cases h1 : status == 401 <;> simp_all
          simp [makeRequestGo, hnaE, ho, hs200, hs401]
      rw [step, ih k hk2 (tried ++ [e]) (fun x hx => hna x (by simp [hx]))
        (fun j hj => by
          have := hbefore (j + 1) (Nat.succ_lt_succ hj)
          simpa [List.get] using this)
        (by simpa [List.get] using h401)]
      simp

theorem makeStreamingGo_of_401 (ctx : TransportCtx) :
    ∀ (eps : List String) (k : Nat) (hk : k < eps.length),
    (∀ e ∈ eps, strContains e "azure-api.net" = false) →
    (∀ j (hj : j < k), failsOver ctx (eps.get ⟨j, hj.trans hk⟩) = true) →
    respondsWith401 ctx (eps.get ⟨k, hk⟩) = true →
    makeStreamingGo ctx eps = .error .authRequired := by
  intro eps
  induction eps with
  | nil => intro k hk; exact absurd hk (by simp)
  | cons e rest ih =>
    intro k hk hna hbefore h401
    have hnaE : strContains e "azure-api.net" = false := hna e (by simp)
    cases k with
    | zero =>
      simp only [List.get] at h401
      cases ho : ctx.oracle e with
      | exn => rw [respondsWith401, ho] at h401; exact absurd h401 (by simp)
      | http status json chunks =>
        rw [respondsWith401, ho] at h401
        have hs : status = 401 := by simpa using h401
        subst hs
        simp [makeStreamingGo, hnaE, ho]
    | succ k =>
      have hfail : failsOver ctx e = true := by
        have := hbefore 0 (Nat.succ_pos k)
        simpa [List.get] using this
      have hk2 : k < rest.length := by simpa using Nat.lt_of_succ_lt_succ hk
      have step : makeStreamingGo ctx (e :: rest) = makeStreamingGo ctx rest := by
        cases ho : ctx.oracle e with
        | exn => simp only [makeStreamingGo, ho]; split <;> rfl
        | http status json chunks =>
          rw [failsOver, ho] at hfail
          have hs200 : (status == 200) = false := by
            cases h1 : status == 200 <;> simp_all
          have hs401 : (status == 401) = false := by
            cases h1 : status == 401 <;> simp_all
          simp [makeStreamingGo, hnaE, ho, hs200, hs401]
      rw [step]
      exact ih k hk2 (fun x hx => hna x (by simp [hx]))
        (fun j hj => by
          have := hbefore (j + 1) (Nat.succ_lt_succ hj)
          simpa [List.get] using this)
        (by simpa [List.get] using h401)

/-! ## Claim theorems: transport client (C1, C2, C10) -/

/-- A transport environment in which every endpoint answers HTTP 401
and no string parses as JSON. -/
def exCtx401 : TransportCtx :=
  { oracle := fun _ => .http 401 none [], jsonLoads := fun _ => none }

/-- A transport environment in which every exchange raises a
transport-level exception. -/
def exCtxExn : TransportCtx :=
  { oracle := fun _ => .exn, jsonLoads := fun _ => none }

/-- C1 (counterexample): for the Azure MCP base URL
`https://x.azure-api.net/cea-mcp/mcp` the sole candidate takes the
Azure streaming branch, and when it responds with HTTP 401 the
buffered call does not fail with the authentication-required error (it
returns the `-32603` parse-error response) while the streaming call
fails with the transport-exhausted error — contradicting the claim
that every 401 is surfaced as an authentication-required failure. -/
theorem C1_azure_401_counterexample :
    respondsWith401 exCtx401
      ((possibleEndpoints "https://x.azure-api.net/cea-mcp/mcp").getD 0 "") = true ∧
    makeRequest exCtx401 "https://x.azure-api.net/cea-mcp/mcp" = .ok streamParseErrResp ∧
    makeStreamingRequest exCtx401 "https://x.azure-api.net/cea-mcp/mcp" =
      .error .allEndpointsFailed := by
  refine ⟨rfl, rfl, rfl⟩

/-- C1 (amended): for a base URL none of whose candidates contains
`azure-api.net` (so every candidate takes the buffered branch), if the
candidates before position `k` fail over (transport exception or a
status other than 200/401) and candidate `k` responds with HTTP 401,
then `_make_request` stops at candidate `k` — exactly the first `k + 1`
candidates are attempted — and raises the authentication-required
error rather than the transport-exhausted one; `_make_streaming_request`
does the same. -/
theorem C1_auth_short_circuit (ctx : TransportCtx) (url : String) (k : Nat)
    (hk : k < (possibleEndpoints url).length)
    (hna : ∀ e ∈ possibleEndpoints url, strContains e "azure-api.net" = false)
    (hbefore : ∀ j (hj : j < k),
      failsOver ctx ((possibleEndpoints url).get ⟨j, hj.trans hk⟩) = true)
    (h401 : respondsWith401 ctx ((possibleEndpoints url).get ⟨k, hk⟩) = true) :
    makeRequestT ctx url = (.error .authRequired, (possibleEndpoints url).take (k + 1)) ∧
    makeStreamingRequest ctx url = .error .authRequired := by
  constructor
  · exact makeRequestGo_of_401 ctx (possibleEndpoints url) k hk [] hna hbefore h401
  · exact makeStreamingGo_of_401 ctx (possibleEndpoints url) k hk hna hbefore h401

/-- C1 witness: concrete 401-everywhere environment on a non-Azure
base URL; only the first candidate is attempted. -/
theorem C1_auth_short_circuit_witness :
    makeRequestT exCtx401 "https://svc.example.com/api/mcp" =
      (.error .authRequired,
       (possibleEndpoints "https://svc.example.com/api/mcp").take 1) ∧
    makeStreamingRequest exCtx401 "https://svc.example.com/api/mcp" =
      .error .authRequired :=
  C1_auth_short_circuit exCtx401 "https://svc.example.com/api/mcp" 0
    (by decide) (by decide)
    (fun j hj => absurd hj (Nat.not_lt_zero j))
    (by decide)

/-- C2 (counterexample): the candidate list generated for
`https://svc.example.com/api/mcp` contains no streaming-transport
variant at all — no candidate carries the
`transportType=streamable-http` marker, contradicting the claimed
fourth entry. -/
theorem C2_no_streaming_variant_counterexample :
    possibleEndpoints "https://svc.example.com/api/mcp" =
      ["https://svc.example.com/api/mcp",
       "https://svc.example.com/api/mcp/jsonrpc",
       "https://svc.example.com/api/mcp/rpc",
       "https://svc.example.com/api",
       "https://svc.example.com/api/jsonrpc"] ∧
    (possibleEndpoints "https://svc.example.com/api/mcp").all
      (fun e => !(strContains e "transportType=streamable-http")) = true := by
  refine ⟨rfl, by decide⟩

/-- C2 (amended): for the non-Azure base URL
`https://svc.example.com/api/mcp` the candidate list is, in priority
order, the base URL unchanged, `base/jsonrpc`, `base/rpc`, and then
the stripped-`/mcp` variants (`.../api` and `.../api/jsonrpc`); no
streaming-transport variant is generated (the
`transportType=streamable-http` marker is used only for Azure MCP
URLs), and the candidates are attempted strictly in that order. -/
theorem C2_candidate_list (ctx : TransportCtx)
    (hexn : ∀ e, ctx.oracle e = .exn) :
    possibleEndpoints "https://svc.example.com/api/mcp" =
      ["https://svc.example.com/api/mcp",
       "https://svc.example.com/api/mcp/jsonrpc",
       "https://svc.example.com/api/mcp/rpc",
       "https://svc.example.com/api",
       "https://svc.example.com/api/jsonrpc"] ∧
    makeRequestT ctx "https://svc.example.com/api/mcp" =
      (.error .allEndpointsFailed,
       ["https://svc.example.com/api/mcp",
        "https://svc.example.com/api/mcp/jsonrpc",
        "https://svc.example.com/api/mcp/rpc",
        "https://svc.example.com/api",
        "https://svc.example.com/api/jsonrpc"]) := by
  refine ⟨rfl, ?_⟩
  rw [makeRequestT, makeRequestGo_all_exn ctx hexn]
  rfl

/-- C2 witness: the exception-everywhere environment attempts every
candidate in order. -/
theorem C2_candidate_list_witness :
    possibleEndpoints "https://svc.example.com/api/mcp" =
      ["https://svc.example.com/api/mcp",
       "https://svc.example.com/api/mcp/jsonrpc",
       "https://svc.example.com/api/mcp/rpc",
       "https://svc.example.com/api",
       "https://svc.example.com/api/jsonrpc"] ∧
    makeRequestT exCtxExn "https://svc.example.com/api/mcp" =
      (.error .allEndpointsFailed,
       ["https://svc.example.com/api/mcp",
        "https://svc.example.com/api/mcp/jsonrpc",
        "https://svc.example.com/api/mcp/rpc",
        "https://svc.example.com/api",
        "https://svc.example.com/api/jsonrpc"]) :=
  C2_candidate_list exCtxExn (fun _ => rfl)

/-- C10: the public query operations are total functions of the
transport outcome (no exception escapes them in the embedding), and
whenever the underlying `_make_request` raises, the three list
operations return a successful-looking response carrying an empty
list, while `call_tool`, `read_resource` and `get_prompt` return a
response whose error reports code `-32601` ("... not available"). -/
theorem C10_query_op_fallbacks (ctx : TransportCtx) (url name uri pname : String)
    (err : ReqError) (h : makeRequest ctx url = .error err) :
    list_tools ctx url = emptyToolsResp ∧
    list_resources ctx url = emptyResourcesResp ∧
    list_prompts ctx url = emptyPromptsResp ∧
    call_tool ctx url name = toolErrResp name ∧
    read_resource ctx url uri = resourceErrResp uri ∧
    get_prompt ctx url pname = promptErrResp pname ∧
    emptyToolsResp.result = some (.obj [("tools", .arr [])]) ∧
    emptyToolsResp.error = none ∧
    emptyResourcesResp.result = some (.obj [("resources", .arr [])]) ∧
    emptyResourcesResp.error = none ∧
    emptyPromptsResp.result = some (.obj [("prompts", .arr [])]) ∧
    emptyPromptsResp.error = none ∧
    (toolErrResp name).error = some (.obj [("code", .num (-32601)),
      ("message", .str ("Tool \x27" ++ name ++ "\x27 not available"))]) ∧
    (resourceErrResp uri).error = some (.obj [("code", .num (-32601)),
      ("message", .str ("Resource \x27" ++ uri ++ "\x27 not available"))]) ∧
    (promptErrResp pname).error = some (.obj [("code", .num (-32601)),
      ("message", .str ("Prompt \x27" ++ pname ++ "\x27 not available"))]) := by
  refine ⟨?_, ?_, ?_, ?_, ?_, ?_, rfl, rfl, rfl, rfl, rfl, rfl, rfl, rfl, rfl⟩ <;>
    simp [list_tools, list_resources, list_prompts, call_tool, read_resource,
      get_prompt, h]

/-- C10 witness: the exception-everywhere environment makes every
query operation fall back. -/
theorem C10_query_op_fallbacks_witness :
    makeRequest exCtxExn "https://svc.example.com/api" = .error .allEndpointsFailed ∧
    list_tools exCtxExn "https://svc.example.com/api" = emptyToolsResp ∧
    call_tool exCtxExn "https://svc.example.com/api" "t" = toolErrResp "t" := by
  have h : makeRequest exCtxExn "https://svc.example.com/api" =
      .error .allEndpointsFailed := by rfl
  have hall := C10_query_op_fallbacks exCtxExn "https://svc.example.com/api"
    "t" "u" "p" .allEndpointsFailed h
  exact ⟨h, hall.1, hall.2.2.2.1⟩

/-! ## Claim theorems: plan execution (C3) -/

/-- Default used only to state lookups into concrete step lists. -/
def defaultStep : ExecutionStep :=
  { step_id := 0, tool_call := ⟨"", [], ""⟩, status := .pending }

/-- The plan of the claim: calls `[A, B, C]`, order `[0, 1, 2]`,
dependencies `{"2": [0, 1]}`. -/
def exPlanC3 : ExecutionPlan :=
  { tool_calls := [⟨"A", [], ""⟩, ⟨"B", [], ""⟩, ⟨"C", [], ""⟩],
    execution_order := [0, 1, 2],
    dependencies := [(2, [0, 1])],
    final_response_template := "" }

/-- A server on which call A succeeds, call B fails (JSON-RPC error),
and any later call would succeed. -/
def exOracleC3 : CallOracle := fun i _ =>
  if i == 0 then
    .ok { jsonrpc := .str "2.0", id := .str "1",
          result := some (.obj [("value", .str "A-result")]) }
  else if i == 1 then
    .ok { jsonrpc := .str "2.0", id := .str "2",
          error := some (.obj [("code", .num (-32000)), ("message", .str "B failed")]) }
  else
    .ok { jsonrpc := .str "2.0", id := .str "3",
          result := some (.obj [("value", .str "C-result")]) }

theorem executePlanGo_status_facts (oracle : CallOracle) (plan : ExecutionPlan) :
    ∀ (order : List Nat) (i : Nat) (cache : List (Nat × Option Jv)) (t : Nat),
    ∀ s ∈ executePlanGo oracle plan order i cache t,
      (s.status = .skipped → s.error = some (.str "Dependencies not met")) ∧
      s.status ≠ .pending ∧ s.status ≠ .running := by
  intro order
  induction order with
  | nil => intro i cache t s hs; simp [executePlanGo] at hs
  | cons idx rest ih =>
    intro i cache t s hs
    rw [executePlanGo] at hs
    dsimp only at hs
    split at hs
    · exact ih _ _ _ s hs
    · split at hs
      · rcases (List.mem_cons).1 hs with rfl | hs
        · exact ⟨fun _ => rfl, by simp, by simp⟩
        · exact ih _ _ _ s hs
      · split at hs
        · rcases (List.mem_cons).1 hs with rfl | hs
          · refine ⟨fun h => ?_, by simp, by simp⟩
            simp at h
          · exact ih _ _ _ s hs
        · split at hs
          · rcases (List.mem_cons).1 hs with rfl | hs
            · refine ⟨fun h => ?_, by simp, by simp⟩
              simp at h
            · exact ih _ _ _ s hs
          · rcases (List.mem_cons).1 hs with rfl | hs
            · refine ⟨fun h => ?_, by simp, by simp⟩
              simp at h
            · exact ih _ _ _ s hs

theorem executePlanGo_length (oracle : CallOracle) (plan : ExecutionPlan) :
    ∀ (order : List Nat) (i : Nat) (cache : List (Nat × Option Jv)) (t : Nat),
    (executePlanGo oracle plan order i cache t).length =
      (order.filter (fun idx => decide (idx < plan.tool_calls.length))).length := by
  intro order
  induction order with
  | nil => intro i cache t; simp [executePlanGo]
  | cons idx rest ih =>
    intro i cache t
    rw [executePlanGo]
    dsimp only
    by_cases hrange : plan.tool_calls.length ≤ idx
    · rw [if_pos (by simpa using hrange)]
      rw [ih]
      simp [List.filter, Nat.not_lt.mpr hrange]
    · rw [if_neg (by simpa using hrange)]
      have hlt : idx < plan.tool_calls.length := Nat.lt_of_not_le hrange
      split
      · simp [List.filter, hlt, ih]
      · split
        · simp [List.filter, hlt, ih]
        · split
          · simp [List.filter, hlt, ih]
          · simp [List.filter, hlt, ih]

/-- C3 (counterexample): in the claim's own scenario the skipped
step's recorded reason is the string `"Dependencies not met"`
(capital D), not `"dependencies not met"` as the claim quotes it. -/
theorem C3_skip_reason_counterexample :
    ((execute_plan exOracleC3 exPlanC3).getD 2 defaultStep).status = .skipped ∧
    ((execute_plan exOracleC3 exPlanC3).getD 2 defaultStep).error =
      some (.str "Dependencies not met") ∧
    "Dependencies not met" ≠ "dependencies not met" := by
  refine ⟨rfl, rfl, by decide⟩

/-- C3 (amended): skipping uses the reason string
`"Dependencies not met"`; a step is never left `pending`/`running`;
the loop never aborts — it emits exactly one step per in-range index
of `execution_order` (so a failed step does not stop later steps);
`success` is the conjunction of all steps being completed; and in the
claim's scenario (`calls [A, B, C]`, `order [0, 1, 2]`,
`deps {"2": [0, 1]}`, B fails) step C is `skipped` — not `failed` —
with that reason, and `success` is false. -/
theorem C3_plan_execution (oracle : CallOracle) (plan : ExecutionPlan) :
    (∀ s ∈ execute_plan oracle plan,
      (s.status = .skipped → s.error = some (.str "Dependencies not met")) ∧
      s.status ≠ .pending ∧ s.status ≠ .running) ∧
    (execute_plan oracle plan).length =
      (plan.execution_order.filter
        (fun idx => decide (idx < plan.tool_calls.length))).length ∧
    (planSuccess (execute_plan oracle plan) = true ↔
      ∀ s ∈ execute_plan oracle plan, s.status = .completed) ∧
    (execute_plan exOracleC3 exPlanC3).map (fun s => s.status) =
      [.completed, .failed, .skipped] ∧
    ((execute_plan exOracleC3 exPlanC3).getD 2 defaultStep).error =
      some (.str "Dependencies not met") ∧
    planSuccess (execute_plan exOracleC3 exPlanC3) = false := by
  refine ⟨executePlanGo_status_facts oracle plan _ _ _ _,
    executePlanGo_length oracle plan _ _ _ _, ?_, rfl, rfl, rfl⟩
  simp [planSuccess, List.all_eq_true]

/-! ## Claim theorems: PKCE (C4) -/

theorem b64ch_ne (i : Nat) : b64ch i ≠ '=' := by
  rw [b64ch]
  rcases Nat.lt_or_ge i b64alphabet.length with h | h
  · have hmem : b64alphabet.getD i 'A' ∈ b64alphabet := by
      rw [List.getD_eq_getElem _ _ h]
      exact List.getElem_mem h
    have hall : ∀ x ∈ b64alphabet, x ≠ '=' := by decide
    exact hall _ hmem
  · rw [List.getD_eq_default _ _ h]
    decide

theorem rstripEquals_append (xs : List Char) (c : Char) (hc : c ≠ '=') :
    rstripEquals (xs ++ [c, '=']) = xs ++ [c] := by
  have hc2 : (c == '=') = false := by simpa using hc
  simp [rstripEquals, hc2]

theorem b64body_shape :
    ∀ (fuel : Nat) (bs : List Nat), bs.length ≤ fuel → bs.length % 3 = 2 →
    ∃ front c, b64body bs = front ++ [c, '='] ∧ c ≠ '=' ∧
      front.length = 4 * (bs.length / 3) + 2 := by
  intro fuel
  induction fuel with
  | zero =>
    intro bs hle hmod
    interval_cases h : bs.length
    · simp [h] at hmod
  | succ n ih =>
    intro bs hle hmod
    match bs with
    | [] => simp at hmod
    | [b1] => simp at hmod
    | [b1, b2] =>
      refine ⟨[b64ch (b1 / 4), b64ch (b1 % 4 * 16 + b2 / 16)],
        b64ch (b2 % 16 * 4), ?_, b64ch_ne _, by simp⟩
      simp [b64body]
    | b1 :: b2 :: b3 :: rest =>
      have hr : rest.length ≤ n := by
        simp only [List.length_cons] at hle
        omega
      have hm : rest.length % 3 = 2 := by
        simp only [List.length_cons] at hmod ⊢
        omega
      obtain ⟨front, c, heq, hc, hlenf⟩ := ih rest hr hm
      refine ⟨b64ch (b1 / 4) :: b64ch (b1 % 4 * 16 + b2 / 16) ::
        b64ch (b2 % 16 * 4 + b3 / 64) :: b64ch (b3 % 64) :: front, c, ?_, hc, ?_⟩
      · simp [b64body, heq]
      · simp only [List.length_cons, hlenf]
        omega

theorem b64urlNoPad_length (bs : List Nat) (h : bs.length % 3 = 2) :
    (b64urlNoPad bs).length = 4 * (bs.length / 3) + 3 := by
  obtain ⟨front, c, heq, hc, hlenf⟩ := b64body_shape bs.length bs (Nat.le_refl _) h
  rw [b64urlNoPad, heq, rstripEquals_append _ _ hc]
  simp [String.length, hlenf]

/-- C4: for any 32 random bytes, the generated PKCE pair satisfies
`challenge = base64url_nopad(sha256(utf8(verifier)))` (with SHA-256
computed by the embedded compression function), and the verifier — the
32 bytes base64url-encoded without padding — has length 43, inside the
PKCE bound `[43, 128]`. -/
theorem C4_pkce (randomBytes : List Nat) (h : randomBytes.length = 32) :
    (generate_pkce_challenge randomBytes).2 =
      b64urlNoPad (sha256 (asciiBytes (generate_pkce_challenge randomBytes).1)) ∧
    43 ≤ (generate_pkce_challenge randomBytes).1.length ∧
    (generate_pkce_challenge randomBytes).1.length ≤ 128 := by
  have h2 : randomBytes.length % 3 = 2 := by rw [h]
  have hlen43 : ((generate_pkce_challenge randomBytes).1).length = 43 := by
    show (b64urlNoPad randomBytes).length = 43
    rw [b64urlNoPad_length randomBytes h2, h]
  exact ⟨rfl, by rw [hlen43], by rw [hlen43]; omega⟩

/-- C4 witness: the all-zero 32-byte draw. -/
theorem C4_pkce_witness :
    (generate_pkce_challenge (List.replicate 32 0)).2 =
      b64urlNoPad (sha256 (asciiBytes (generate_pkce_challenge (List.replicate 32 0)).1)) ∧
    43 ≤ (generate_pkce_challenge (List.replicate 32 0)).1.length ∧
    (generate_pkce_challenge (List.replicate 32 0)).1.length ≤ 128 :=
  C4_pkce (List.replicate 32 0) (by simp)

/-! ## Claim theorems: delegation tokens (C5, C6) -/

/-- A delegation token for `alice`: issued at time 0, valid 100s. -/
def exDelegToken : DelegationToken :=
  { access_token := "DTOK", token_type := "Bearer", expires_in := 100,
    scope := "read", delegated_user := "alice", issued_at := 0 }

/-- A client state holding a primary token and a delegation entry for
`alice`. -/
def exStC5 : OAuthClientState :=
  { token := some (.obj [("access_token", .str "PRIMARY")]),
    delegation_tokens := [("alice", exDelegToken)] }

/-- C5 (counterexample): at the exact instant
`now = issued_at + expires_in` the delegation token is expired in the
claim's sense (`now` is not strictly before the expiry), yet
`get_auth_headers` still returns the delegation headers instead of
failing — the expiry test uses a strict `>`. -/
theorem C5_boundary_counterexample :
    ¬((100 : Int) < exDelegToken.issued_at + exDelegToken.expires_in) ∧
    get_auth_headers 100 exStC5 (some "alice") =
      .ok [("Authorization", "Bearer DTOK"),
           ("Content-Type", "application/json"),
           ("X-Delegated-User", "alice")] := by
  refine ⟨by decide, rfl⟩

/-- C5 (amended): for a non-empty delegated user with a stored
delegation token, `get_auth_headers` fails with the expiry error
naming the user exactly when `now` is strictly after
`issued_at + expires_in` (never silently falling back to the primary
token), and otherwise — including the boundary instant itself —
returns the delegation headers; with no delegation entry the call
behaves exactly like the primary-token path; with no token at all it
fails with the no-token error. -/
theorem C5_auth_headers (now : Int) (st : OAuthClientState) (u : String)
    (hu : u ≠ "") :
    (∀ dt, (st.delegation_tokens.find? (fun p => p.1 == u)).map (fun p => p.2) = some dt →
      (now > dt.issued_at + dt.expires_in →
        get_auth_headers now st (some u) = .error (.delegationExpired u)) ∧
      (¬ now > dt.issued_at + dt.expires_in →
        get_auth_headers now st (some u) =
          .ok [("Authorization", dt.token_type ++ " " ++ dt.access_token),
               ("Content-Type", "application/json"),
               ("X-Delegated-User", u)])) ∧
    ((st.delegation_tokens.find? (fun p => p.1 == u)) = none →
      get_auth_headers now st (some u) = get_auth_headers now st none) ∧
    (st.token = none → (st.delegation_tokens.find? (fun p => p.1 == u)) = none →
      get_auth_headers now st (some u) = .error .noToken) := by
  have hempty : u.isEmpty = false := by
    cases he : u.isEmpty
    · rfl
    · exact absurd ((String.isEmpty_iff u).mp he) hu
  refine ⟨fun dt hdt => ⟨fun hexp => ?_, fun hnexp => ?_⟩, fun hnone => ?_, fun htok hnone => ?_⟩
  · simp only [get_auth_headers, hempty, hdt]
    rw [if_pos hexp]
    simp
  · simp only [get_auth_headers, hempty, hdt]
    rw [if_neg hnexp]
    simp
  · simp [get_auth_headers, hempty, hnone]
  · simp [get_auth_headers, primary_auth_headers, hempty, hnone, htok]

/-- C5 witness: one second past expiry the call fails naming the
user. -/
theorem C5_auth_headers_witness :
    get_auth_headers 101 exStC5 (some "alice") =
      .error (.delegationExpired "alice") :=
  (((C5_auth_headers 101 exStC5 "alice" (by decide)).1 exDelegToken rfl).1 (by decide))

/-- C6: `is_delegation_token_valid` is true iff a delegation token is
stored for the user and `now < issued_at + expires_in`; at the instant
`now = issued_at + expires_in` it is exactly false (exclusive
boundary).  The embedded function is pure — it only reads the token
table. -/
theorem C6_delegation_validity (now : Int) (st : OAuthClientState) (u : String) :
    (is_delegation_token_valid now st u = true ↔
      ∃ dt, (st.delegation_tokens.find? (fun p => p.1 == u)).map (fun p => p.2) = some dt ∧
        now < dt.issued_at + dt.expires_in) ∧
    (∀ dt, (st.delegation_tokens.find? (fun p => p.1 == u)).map (fun p => p.2) = some dt →
      is_delegation_token_valid (dt.issued_at + dt.expires_in) st u = false) := by
  constructor
  · cases hfind : (st.delegation_tokens.find? (fun p => p.1 == u)).map (fun p => p.2) with
    | none => simp [is_delegation_token_valid, hfind]
    | some dt => simp [is_delegation_token_valid, hfind]
  · intro dt hdt
    simp [is_delegation_token_valid, hdt]

/-! ## Claim theorems: metadata discovery (C7) -/

theorem append_isEmpty_false (a b : String) (hb : b.length ≠ 0) :
    (a ++ b).isEmpty = false := by
  cases he : (a ++ b).isEmpty
  · rfl
  · have h0 := congrArg String.length ((String.isEmpty_iff _).mp he)
    rw [String.length_append] at h0
    simp at h0
    omega

theorem append_ne_empty (a b : String) (hb : b.length ≠ 0) : (a ++ b) ≠ "" := by
  intro h
  have h0 := congrArg String.length h
  rw [String.length_append] at h0
  simp at h0
  omega

/-- A probe map on which the first well-known URL serves a native
metadata document with no OAuth endpoint fields. -/
def exProbeC7 : String → Option Jv := fun u =>
  if u == "https://host/.well-known/mcp-configuration" then
    some (.obj [("name", .str "X")])
  else none

/-- An OAuth metadata fetch that always fails. -/
def noOauthFetch : String → Except Unit Jv := fun _ => .error ()

/-- C7 (counterexample): discovery succeeds (the first probe returns a
parseable document), yet because the document carries no OAuth
endpoint fields, `discover_full_configuration` returns **empty
strings** for both `authorization_endpoint` and `token_endpoint` — the
claimed invariant fails. -/
theorem C7_empty_endpoints_counterexample :
    (discover_full_configuration exProbeC7 noOauthFetch "https://host").oauth_metadata.authorization_endpoint = .str "" ∧
    (discover_full_configuration exProbeC7 noOauthFetch "https://host").oauth_metadata.token_endpoint = .str "" := by
  refine ⟨rfl, rfl⟩

/-- C7 (amended): when no probe succeeds, the synthesized defaults
make `authorization_endpoint` and `token_endpoint` non-empty strings
(`<scheme>://<netloc>/oauth/authorize` and `.../oauth/token`); when a
probed document lacks the OAuth endpoint fields, the two fields come
out as empty strings instead. -/
theorem C7_default_endpoints_nonempty (probe : String → Option Jv)
    (oauthFetch : String → Except Unit Jv) (url : String)
    (hnone : ∀ u, probe u = none) :
    ∃ sa st : String,
      (discover_full_configuration probe oauthFetch url).oauth_metadata.authorization_endpoint = .str sa ∧
      sa ≠ "" ∧
      (discover_full_configuration probe oauthFetch url).oauth_metadata.token_endpoint = .str st ∧
      st ≠ "" := by
  have hA := append_isEmpty_false (schemeNetloc (normalizeUrl url)) "/oauth/authorize" (by decide)
  have hT := append_isEmpty_false (schemeNetloc (normalizeUrl url)) "/oauth/token" (by decide)
  refine ⟨schemeNetloc (normalizeUrl url) ++ "/oauth/authorize",
          schemeNetloc (normalizeUrl url) ++ "/oauth/token",
          ?_, append_ne_empty _ _ (by decide), ?_, append_ne_empty _ _ (by decide)⟩
  · simp [discover_full_configuration, discover_mcp_metadata, probeLoop, hnone,
      construct_default_metadata, construct_oauth_from_mcp_metadata, orEmptyStr,
      jvTruthy, hA]
  · simp [discover_full_configuration, discover_mcp_metadata, probeLoop, hnone,
      construct_default_metadata, construct_oauth_from_mcp_metadata, orEmptyStr,
      jvTruthy, hT]

/-- C7 witness: a host with no discoverable metadata at all. -/
theorem C7_default_endpoints_nonempty_witness :
    ∃ sa st : String,
      (discover_full_configuration (fun _ => none) noOauthFetch "https://host").oauth_metadata.authorization_endpoint = .str sa ∧
      sa ≠ "" ∧
      (discover_full_configuration (fun _ => none) noOauthFetch "https://host").oauth_metadata.token_endpoint = .str st ∧
      st ≠ "" :=
  C7_default_endpoints_nonempty (fun _ => none) noOauthFetch "https://host" (fun _ => rfl)

/-! ## Claim theorems: buffered 401 refresh-and-retry (C8) -/

theorem mcp_make_request_bounds (c : McpClientCtx) :
    (mcp_make_request c).2.1 ≤ 2 ∧ (mcp_make_request c).2.2 ≤ 1 := by
  unfold mcp_make_request
  repeat' split
  all_goals simp

/-- C8: a buffered request makes at most two HTTP posts and at most
one token refresh; when the first post yields 401 (and the refresh and
header reconstruction succeed) it performs exactly one refresh
followed by exactly one retry; and when the retry yields 401 again,
that `HTTPStatusError` is surfaced to the caller with no further
refresh or retry. -/
theorem C8_refresh_retry (c : McpClientCtx) :
    (mcp_make_request c).2.1 ≤ 2 ∧
    (mcp_make_request c).2.2 ≤ 1 ∧
    (∀ body, c.tokenPresent = true → c.headersOk 0 = true →
      c.post 0 = .status 401 body → c.refreshOk = true → c.headersOk 1 = true →
      (mcp_make_request c).2.1 = 2 ∧ (mcp_make_request c).2.2 = 1) ∧
    (∀ body body2, c.tokenPresent = true → c.headersOk 0 = true →
      c.post 0 = .status 401 body → c.refreshOk = true → c.headersOk 1 = true →
      c.post 1 = .status 401 body2 →
      (mcp_make_request c).1 = .error (.httpStatusErr 401) ∧
      (mcp_make_request c).2.1 = 2 ∧ (mcp_make_request c).2.2 = 1) := by
  refine ⟨(mcp_make_request_bounds c).1, (mcp_make_request_bounds c).2, ?_, ?_⟩
  · intro body htok hh0 hp0 hr hh1
    cases hp1 : c.post 1 with
    | status code2 body2 =>
      simp [mcp_make_request, htok, hh0, hp0, hr, hh1, hp1]
      repeat' split
      all_goals simp
    | exn =>
      simp [mcp_make_request, htok, hh0, hp0, hr, hh1, hp1]
  · intro body body2 htok hh0 hp0 hr hh1 hp1
    simp [mcp_make_request, htok, hh0, hp0, hr, hh1, hp1]

/-! ## Claim theorems: orchestrator flow ordering (C9) -/

/-- C9: in every run of the orchestrator — the `start_full_oauth_flow`
event stream alone, and the full run extended by the separate
`complete_authorization` result when the start run reached
`wait_for_code` — the emitted `FlowStatus` events respect the fixed
step order `discover_metadata, register_client, get_authorization_url,
wait_for_code, exchange_code, complete` with `error` reachable from
any state and terminal, and the progress values of successive
non-terminal events never decrease until a terminal `complete` or
`error` status. -/
theorem C9_flow_ordering (o : OrchCtx)
    (exchange : Except String (List (String × Jv))) :
    wellOrderedEvents (start_full_oauth_flow o) = true ∧
    wellOrderedEvents (fullFlowRun o exchange) = true := by
  obtain ⟨url, disc, reg, auth⟩ := o
  cases disc with
  | error msg =>
    cases auth <;>
      simp [start_full_oauth_flow, fullFlowRun, wellOrderedEvents, pairOk,
        isTerminal, stepRank, flowErrEvent]
  | ok cfg =>
    cases auth with
    | error msg2 =>
      by_cases hreg : regEndpointTruthy cfg <;> cases reg <;>
        simp [start_full_oauth_flow, fullFlowRun, wellOrderedEvents, pairOk,
          isTerminal, stepRank, flowErrEvent, hreg]
    | ok authUrl =>
      by_cases hreg : regEndpointTruthy cfg <;> cases reg <;> cases exchange <;>
        simp [start_full_oauth_flow, fullFlowRun, wellOrderedEvents, pairOk,
          isTerminal, stepRank, flowErrEvent, hreg, complete_authorization, tokenData]
